import Mathlib

/-!
Verification development for the web-scraping examples repository.

The central program under study is the PubMed notebook (`biosearch_scraper`):
`search_articles` builds an Entrez query term from the keyword argument and a
date, asks the external esearch service for matching UIDs (limited by
`max_results`, default 10), and `article_details` fetches the DocSum summary
records for those UIDs and builds one output row per record, with a
`"No disponible"` sentinel for a missing DOI and a PubMed link derived from
the record's Id.  Python dictionaries are embedded as association lists; a
Python `KeyError` becomes an explicit error value.

The statistics-join example's code is not among the staged sources, so the
generic table join is modelled from the specification's Tabulator contract.
-/

namespace BioSearch

/-- A Python value as it occurs in this program: a string or a list of
strings (titles, dates, UIDs, author lists). -/
inductive PyVal where
  | str (v : String)
  | list (v : List String)
deriving DecidableEq, Repr

/-- Python `str()` rendering as used by f-string interpolation: a string
renders as itself, a list of strings renders bracketed with quoted,
comma-separated elements (e.g. `['cancer', 'brain']`). -/
def pyStr : PyVal → String
  | .str v => v
  | .list v => "[" ++ String.intercalate ", " (v.map (fun x => "\x27" ++ x ++ "\x27")) ++ "]"

/-- A DocSum summary record: a dictionary from field name to value. -/
abbrev DocSum := List (String × PyVal)

/-- An output row of `article_details`: also a dictionary. -/
abbrev Row := List (String × PyVal)

/-- The Python exception raised by a failed dictionary subscript. -/
inductive PyError where
  | keyError (k : String)
deriving DecidableEq, Repr

/-- The sentinel used for a missing DOI: `article.get("DOI", "No disponible")`. -/
def doiSentinel : String := "No disponible"

/-- The fixed prefix of the per-article PubMed link. -/
def linkBase : String := "https://www.ncbi.nlm.nih.gov/pubmed/"

/-- The dictionary literal built for one article inside `article_details`,
given the values of the four required fields already looked up. -/
def mkRow (a : DocSum) (vid vt va vp : PyVal) : Row :=
  [("ID", vid), ("Title", vt), ("AuthorList", va), ("PubDate", vp),
   ("DOI", (a.lookup "DOI").getD (PyVal.str doiSentinel)),
   ("Link PubMed", PyVal.str (linkBase ++ pyStr vid))]

/-- One iteration of the loop in `article_details`: subscripting the record
with "Id", "Title", "AuthorList" and "PubDate" (in the evaluation order of
the Python dict literal, raising `KeyError` at the first missing one),
`.get` with the sentinel default for "DOI", and the f-string link. -/
def articleInfo (a : DocSum) : Except PyError Row :=
  match a.lookup "Id" with
  | none => .error (.keyError "Id")
  | some vid =>
    match a.lookup "Title" with
    | none => .error (.keyError "Title")
    | some vt =>
      match a.lookup "AuthorList" with
      | none => .error (.keyError "AuthorList")
      | some va =>
        match a.lookup "PubDate" with
        | none => .error (.keyError "PubDate")
        | some vp => .ok (mkRow a vid vt va vp)

/-- The `for article in record_summary` loop of `article_details`: rows are
appended in iteration order; an uncaught `KeyError` aborts the whole call,
discarding every row accumulated so far. -/
def articlesLoop : List DocSum → Except PyError (List Row)
  | [] => .ok []
  | a :: rest =>
    match articleInfo a with
    | .error e => .error e
    | .ok r =>
      match articlesLoop rest with
      | .error e => .error e
      | .ok rs => .ok (r :: rs)

/-- `article_details(id_list)`: joins the UIDs with commas, calls the external
Entrez esummary service on that string, and runs the row-building loop.
Modelled from the spec: the esummary upstream service is external to the
repository and is abstracted as a function from the comma-joined UID string
to the parsed list of DocSum records. -/
def article_details (esummary : String → List DocSum) (id_list : List String) :
    Except PyError (List Row) :=
  articlesLoop (esummary (String.intercalate "," id_list))

/-- The query term built by `search_articles`:
`f"{key_words}[Title/Abstract] AND {date}[PDAT]"`. -/
def searchTerm (key_words : PyVal) (date : String) : String :=
  pyStr key_words ++ "[Title/Abstract] AND " ++ date ++ "[PDAT]"

/-- Modelled from the spec: `Entrez.esearch` queries an external database for
the UIDs matching a term and returns at most `retmax` of them, in the
source's relevance order.  The database is abstracted as a function from the
term string to the full matching UID list. -/
def esearch (db : String → List String) (term : String) (retmax : Nat) : List String :=
  (db term).take retmax

/-- `search_articles(key_words, date, max_results=10)`: builds the term and
returns the UID list of the esearch response, limited to `max_results`. -/
def search_articles (db : String → List String) (key_words : PyVal) (date : String)
    (max_results : Nat := 10) : List String :=
  esearch db (searchTerm key_words date) max_results

/-- The notebook's end-to-end flow: search for UIDs with the default page
size, then fetch and tabulate their summaries. -/
def pipeline (db : String → List String) (esummary : String → List DocSum)
    (key_words : PyVal) (date : String) : Except PyError (List Row) :=
  article_details esummary (search_articles db key_words date)

/-- Whether a DocSum carries all four fields `article_details` subscripts. -/
def requiredPresent (a : DocSum) : Bool :=
  (a.lookup "Id").isSome && (a.lookup "Title").isSome &&
  (a.lookup "AuthorList").isSome && (a.lookup "PubDate").isSome

/-- The field names of a row, in insertion order. -/
def fieldNames (r : Row) : List String := r.map Prod.fst

/-- The declared schema of the rows `article_details` produces. -/
def articleSchema : List String :=
  ["ID", "Title", "AuthorList", "PubDate", "DOI", "Link PubMed"]

end BioSearch

namespace TableJoin

/-- A row of a statistics table: a mapping from column name to cell value. -/
abbrev JRecord := List (String × String)

/-- Modelled from the spec: merging the columns of a matching pair of rows,
"one row per matching key with columns from both sides"; a column already
present on the left is not duplicated. -/
def mergeRecords (a b : JRecord) : JRecord :=
  a ++ b.filter (fun p => (a.lookup p.1).isNone)

/-- Whether two rows match on the key field `K`: both carry `K` and the two
values are equal. -/
def keyMatch (K : String) (a b : JRecord) : Bool :=
  match a.lookup K, b.lookup K with
  | some x, some y => x == y
  | _, _ => false

/-- Modelled from the spec: the Tabulator's inner equality join on a named
key field, producing a row per matching pair (cross-product semantics for a
duplicated key), with columns from both sides. -/
def joinTables (A B : List JRecord) (K : String) : List JRecord :=
  A.flatMap (fun a => (B.filter (fun b => keyMatch K a b)).map (fun b => mergeRecords a b))

/-- A one-row left table for concrete join instances: a month of INE data. -/
def wA : List JRecord := [[("date", "2023-01"), ("ine", "5")]]

/-- A two-row right table with unique `date` keys: two months of EU data. -/
def wB : List JRecord :=
  [[("date", "2023-01"), ("eu", "7")], [("date", "2023-02"), ("eu", "8")]]

/-- The joined row of `wA` and `wB` on `date`. -/
def wR : JRecord := [("date", "2023-01"), ("ine", "5"), ("eu", "7")]

end TableJoin

namespace BioSearch

/-- A concrete esearch database: one UID matches every term. -/
def ceDb : String → List String := fun _ => ["38303306"]

/-- A concrete DocSum carrying the four required fields and no DOI key
(the notebook's third result really lacked one). -/
def ceDoc : DocSum :=
  [("Id", .str "38303306"), ("Title", .str "A Case"),
   ("AuthorList", .list ["Hikino H"]), ("PubDate", .str "2023 Dec")]

/-- The row `article_details` builds from `ceDoc`. -/
def ceRow : Row :=
  [("ID", .str "38303306"), ("Title", .str "A Case"),
   ("AuthorList", .list ["Hikino H"]), ("PubDate", .str "2023 Dec"),
   ("DOI", .str "No disponible"),
   ("Link PubMed", .str "https://www.ncbi.nlm.nih.gov/pubmed/38303306")]

/-- A concrete esummary upstream returning one well-formed DocSum. -/
def ceEsummary : String → List DocSum := fun _ => [ceDoc]

/-- A well-formed concrete DocSum. -/
def goodDoc : DocSum :=
  [("Id", .str "1"), ("Title", .str "T"),
   ("AuthorList", .list ["A"]), ("PubDate", .str "2023")]

/-- A malformed concrete DocSum: the required field "Title" is missing. -/
def badDoc : DocSum :=
  [("Id", .str "2"), ("AuthorList", .list ["B"]), ("PubDate", .str "2023")]

/-- The row `article_details` builds from `goodDoc`. -/
def goodRow : Row :=
  [("ID", .str "1"), ("Title", .str "T"),
   ("AuthorList", .list ["A"]), ("PubDate", .str "2023"),
   ("DOI", .str "No disponible"),
   ("Link PubMed", .str "https://www.ncbi.nlm.nih.gov/pubmed/1")]

/-- The UID list the notebook's `{cancer, brain} x 2023` query obtains from a
given database, with the default page size. -/
def cancerBrainIds (db : String → List String) : List String :=
  search_articles db (.list ["cancer", "brain"]) "2023"

/-- The DocSum records the esummary upstream returns for that UID list. -/
def cancerBrainDocs (db : String → List String) (esummary : String → List DocSum) :
    List DocSum :=
  esummary (String.intercalate "," (cancerBrainIds db))

end BioSearch

namespace BioSearch

/-- Characterization of a successful `articleInfo` run: all four required
fields are present and the row is the literal dictionary of the source. -/
theorem articleInfo_ok_iff (a : DocSum) (r : Row) :
    articleInfo a = .ok r ↔
      ∃ vid vt va vp, a.lookup "Id" = some vid ∧ a.lookup "Title" = some vt ∧
        a.lookup "AuthorList" = some va ∧ a.lookup "PubDate" = some vp ∧
        r = mkRow a vid vt va vp := by
  unfold articleInfo
  cases hid : a.lookup "Id" with
  | none => simp
  | some vid =>
    cases ht : a.lookup "Title" with
    | none => simp
    | some vt =>
      cases hau : a.lookup "AuthorList" with
      | none => simp
      | some va =>
        cases hp : a.lookup "PubDate" with
        | none => simp
        | some vp => simp [eq_comm]

/-- A record that produced a row has all four required fields. -/
theorem requiredPresent_of_ok (a : DocSum) (r : Row) (h : articleInfo a = .ok r) :
    requiredPresent a = true := by
  rw [articleInfo_ok_iff] at h
  obtain ⟨vid, vt, va, vp, h1, h2, h3, h4, _⟩ := h
  simp [requiredPresent, h1, h2, h3, h4]

/-- A record with all four required fields produces a row. -/
theorem articleInfo_ok_of_required (a : DocSum) (h : requiredPresent a = true) :
    ∃ r, articleInfo a = .ok r := by
  unfold requiredPresent at h
  simp only [Bool.and_eq_true, Option.isSome_iff_exists] at h
  obtain ⟨⟨⟨⟨vid, h1⟩, vt, h2⟩, va, h3⟩, vp, h4⟩ := h
  exact ⟨mkRow a vid vt va vp,
    (articleInfo_ok_iff a _).mpr ⟨vid, vt, va, vp, h1, h2, h3, h4, rfl⟩⟩

/-- A record missing a required field makes `articleInfo` raise. -/
theorem articleInfo_error_of_not_required (a : DocSum) (h : requiredPresent a = false) :
    ∃ e, articleInfo a = .error e := by
  cases hres : articleInfo a with
  | error e => exact ⟨e, rfl⟩
  | ok r => rw [requiredPresent_of_ok a r hres] at h; exact absurd h (by simp)

/-- A successful loop run yields one row per input record. -/
theorem articlesLoop_length : ∀ (ds : List DocSum) (rows : List Row),
    articlesLoop ds = .ok rows → rows.length = ds.length := by
  intro ds
  induction ds with
  | nil =>
    intro rows h
    simp only [articlesLoop] at h
    cases h
    rfl
  | cons a rest ih =>
    intro rows h
    simp only [articlesLoop] at h
    cases hai : articleInfo a with
    | error e => rw [hai] at h; cases h
    | ok r =>
      rw [hai] at h
      cases hrest : articlesLoop rest with
      | error e => rw [hrest] at h; cases h
      | ok rs =>
        rw [hrest] at h
        cases h
        simp [ih rs hrest]

/-- In a successful loop run, the i-th row is built from the i-th record. -/
theorem articlesLoop_get : ∀ (ds : List DocSum) (rows : List Row),
    articlesLoop ds = .ok rows → ∀ (i : Nat) (hi : i < ds.length) (hi' : i < rows.length),
      articleInfo (ds.get ⟨i, hi⟩) = .ok (rows.get ⟨i, hi'⟩) := by
  intro ds
  induction ds with
  | nil => intro rows h i hi hi'; simp at hi
  | cons a rest ih =>
    intro rows h i hi hi'
    simp only [articlesLoop] at h
    cases hai : articleInfo a with
    | error e => rw [hai] at h; cases h
    | ok r =>
      rw [hai] at h
      cases hrest : articlesLoop rest with
      | error e => rw [hrest] at h; cases h
      | ok rs =>
        rw [hrest] at h
        cases h
        cases i with
        | zero => simpa using hai
        | succ n => exact ih rs hrest n (Nat.lt_of_succ_lt_succ hi) (Nat.lt_of_succ_lt_succ hi')

/-- Every row of a successful loop run comes from some input record. -/
theorem articlesLoop_mem : ∀ (ds : List DocSum) (rows : List Row),
    articlesLoop ds = .ok rows → ∀ r ∈ rows, ∃ a ∈ ds, articleInfo a = .ok r := by
  intro ds
  induction ds with
  | nil =>
    intro rows h r hr
    simp only [articlesLoop] at h
    cases h
    cases hr
  | cons a rest ih =>
    intro rows h r hr
    simp only [articlesLoop] at h
    cases hai : articleInfo a with
    | error e => rw [hai] at h; cases h
    | ok r0 =>
      rw [hai] at h
      cases hrest : articlesLoop rest with
      | error e => rw [hrest] at h; cases h
      | ok rs =>
        rw [hrest] at h
        cases h
        rcases List.mem_cons.mp hr with rfl | hr'
        · exact ⟨a, List.mem_cons_self a rest, hai⟩
        · obtain ⟨b, hb, hbok⟩ := ih rs hrest r hr'
          exact ⟨b, List.mem_cons_of_mem a hb, hbok⟩

/-- In a successful loop run, every input record produced a row. -/
theorem articlesLoop_forall_ok : ∀ (ds : List DocSum) (rows : List Row),
    articlesLoop ds = .ok rows → ∀ a ∈ ds, ∃ r, articleInfo a = .ok r := by
  intro ds
  induction ds with
  | nil => intro rows _ a ha; cases ha
  | cons a rest ih =>
    intro rows h b hb
    simp only [articlesLoop] at h
    cases hai : articleInfo a with
    | error e => rw [hai] at h; cases h
    | ok r0 =>
      rw [hai] at h
      cases hrest : articlesLoop rest with
      | error e => rw [hrest] at h; cases h
      | ok rs =>
        rcases List.mem_cons.mp hb with rfl | hb'
        · exact ⟨r0, hai⟩
        · exact ih rs hrest b hb'

/-- The loop succeeds on a batch of well-formed records. -/
theorem articlesLoop_ok_of_required : ∀ ds : List DocSum,
    (∀ a ∈ ds, requiredPresent a = true) → ∃ rows, articlesLoop ds = .ok rows := by
  intro ds
  induction ds with
  | nil => exact fun _ => ⟨[], rfl⟩
  | cons a rest ih =>
    intro h
    obtain ⟨r, hr⟩ := articleInfo_ok_of_required a (h a (List.mem_cons_self a rest))
    obtain ⟨rows, hrows⟩ := ih (fun b hb => h b (List.mem_cons_of_mem a hb))
    exact ⟨r :: rows, by simp [articlesLoop, hr, hrows]⟩

/-- The field names of the literal row are exactly the declared schema. -/
theorem mkRow_fieldNames (a : DocSum) (vid vt va vp : PyVal) :
    fieldNames (mkRow a vid vt va vp) = articleSchema := rfl

/-- Every schema field is present in the literal row. -/
theorem mkRow_lookup_isSome (a : DocSum) (vid vt va vp : PyVal) :
    ∀ f ∈ articleSchema, ((mkRow a vid vt va vp).lookup f).isSome = true := by
  intro f hf
  simp only [articleSchema, List.mem_cons, List.not_mem_nil, or_false] at hf
  rcases hf with rfl | rfl | rfl | rfl | rfl | rfl <;> rfl

/-- With no DOI key on the source, the row's DOI is the sentinel. -/
theorem mkRow_lookup_DOI_none (a : DocSum) (vid vt va vp : PyVal)
    (h : a.lookup "DOI" = none) :
    (mkRow a vid vt va vp).lookup "DOI" = some (PyVal.str doiSentinel) := by
  have e : (mkRow a vid vt va vp).lookup "DOI" =
      some ((a.lookup "DOI").getD (PyVal.str doiSentinel)) := rfl
  rw [e, h]
  rfl

/-- The search result is never longer than the page size. -/
theorem length_search_articles_le (db : String → List String) (kw : PyVal)
    (d : String) (m : Nat) : (search_articles db kw d m).length ≤ m :=
  List.length_take_le m (db (searchTerm kw d))

end BioSearch

namespace TableJoin

/-- Looking a key up in a concatenation tries the left part first. -/
theorem lookup_append (k : String) (l₁ l₂ : JRecord) :
    (l₁ ++ l₂).lookup k =
      match l₁.lookup k with
      | some v => some v
      | none => l₂.lookup k := by
  induction l₁ with
  | nil => simp [List.lookup]
  | cons p rest ih =>
    obtain ⟨k1, v1⟩ := p
    cases hk : (k == k1) with
    | true => simp [List.lookup, hk]
    | false => simp [List.lookup, hk, ih]

/-- A key of a member pair is found by lookup. -/
theorem lookup_isSome_of_mem (p : String × String) (l : JRecord) (h : p ∈ l) :
    (l.lookup p.1).isSome = true := by
  induction l with
  | nil => cases h
  | cons q rest ih =>
    obtain ⟨k1, v1⟩ := q
    rcases List.mem_cons.mp h with rfl | h'
    · simp [List.lookup]
    · cases hk : (p.1 == k1) with
      | true => simp [List.lookup, hk]
      | false => simp [List.lookup, hk, ih h']

/-- Looking up in the part of `b` whose keys `a` lacks: the result is `b`'s
when `a` has no binding for the key, nothing otherwise. -/
theorem lookup_filter_keyless (a b : JRecord) (k : String) :
    ((b.filter (fun p => (a.lookup p.1).isNone)).lookup k) =
      match a.lookup k with
      | none => b.lookup k
      | some _ => none := by
  induction b with
  | nil => cases h : a.lookup k <;> simp [List.lookup]
  | cons q rest ih =>
    obtain ⟨k1, v1⟩ := q
    cases hf : (a.lookup k1).isNone with
    | true =>
      cases hk : (k == k1) with
      | true =>
        have hkk : k = k1 := beq_iff_eq.mp hk
        subst hkk
        rw [Option.isNone_iff_eq_none] at hf
        simp [List.filter, List.lookup, hf]
      | false => simp [List.filter, List.lookup, hf, hk, ih]
    | false =>
      cases hk : (k == k1) with
      | true =>
        have hkk : k = k1 := beq_iff_eq.mp hk
        subst hkk
        simp only [List.filter, hf]
        rw [ih]
        cases h : a.lookup k with
        | none => rw [h] at hf; simp at hf
        | some w => rfl
      | false => simp [List.filter, List.lookup, hf, hk, ih]

/-- Lookup in a merged row: the left row wins, the right fills the gaps. -/
theorem lookup_mergeRecords (a b : JRecord) (k : String) :
    (mergeRecords a b).lookup k =
      match a.lookup k with
      | some v => some v
      | none => b.lookup k := by
  unfold mergeRecords
  rw [lookup_append, lookup_filter_keyless]
  cases h : a.lookup k <;> rfl

/-- Re-merging a merged row with its own right side changes nothing. -/
theorem mergeRecords_absorb (a b : JRecord) :
    mergeRecords (mergeRecords a b) b = mergeRecords a b := by
  have hnil : b.filter (fun p => ((mergeRecords a b).lookup p.1).isNone) = [] := by
    rw [List.filter_eq_nil_iff]
    intro p hp
    rw [lookup_mergeRecords]
    cases h : a.lookup p.1 with
    | some v => simp
    | none =>
      have hs := lookup_isSome_of_mem p b hp
      simp only [Option.isNone_iff_eq_none]
      intro hc
      rw [hc] at hs
      cases hs
  show mergeRecords a b ++ b.filter (fun p => ((mergeRecords a b).lookup p.1).isNone) =
    mergeRecords a b
  rw [hnil, List.append_nil]

/-- A matching pair both carry the key, with one shared value. -/
theorem keyMatch_iff (K : String) (a b : JRecord) :
    keyMatch K a b = true ↔ ∃ x, a.lookup K = some x ∧ b.lookup K = some x := by
  unfold keyMatch
  cases ha : a.lookup K with
  | none =>
    constructor
    · intro h; cases h
    · rintro ⟨x, hx, _⟩; cases hx
  | some x =>
    cases hb : b.lookup K with
    | none =>
      constructor
      · intro h; cases h
      · rintro ⟨z, _, hz⟩; cases hz
    | some y =>
      constructor
      · intro h
        exact ⟨x, rfl, by rw [show y = x from (beq_iff_eq.mp h).symm]⟩
      · rintro ⟨z, hz1, hz2⟩
        cases hz1
        cases hz2
        exact beq_iff_eq.mpr rfl

/-- A merged row matches exactly what its left component matched. -/
theorem keyMatch_mergeRecords (K : String) (a b c : JRecord)
    (h : keyMatch K a b = true) :
    keyMatch K (mergeRecords a b) c = keyMatch K a c := by
  obtain ⟨x, hax, _⟩ := (keyMatch_iff K a b).mp h
  unfold keyMatch
  rw [lookup_mergeRecords, hax]

/-- Membership in a join: a matching pair producing the row. -/
theorem mem_joinTables (A B : List JRecord) (K : String) (r : JRecord) :
    r ∈ joinTables A B K ↔
      ∃ a ∈ A, ∃ b ∈ B, keyMatch K a b = true ∧ r = mergeRecords a b := by
  simp only [joinTables, List.mem_flatMap, List.mem_map, List.mem_filter]
  constructor
  · rintro ⟨a, ha, b, ⟨hb, hm⟩, hr⟩
    exact ⟨a, ha, b, hb, hm, hr.symm⟩
  · rintro ⟨a, ha, b, hb, hm, hr⟩
    exact ⟨a, ha, b, ⟨hb, hm⟩, hr.symm⟩

end TableJoin

namespace BioSearch

/-- C1, counterexample: on a record with no DOI key the pipeline's row holds
the code's sentinel "No disponible", not the claimed sentinel
"not available". -/
theorem pipeline_sentinel_counterexample :
    ceDoc.lookup "DOI" = none ∧
    pipeline ceDb ceEsummary (.list ["cancer", "brain"]) "2023" = .ok [ceRow] ∧
    ceRow.lookup "DOI" = some (PyVal.str "No disponible") ∧
    PyVal.str "No disponible" ≠ PyVal.str "not available" := by
  refine ⟨rfl, rfl, rfl, by decide⟩

/-- C1, amended: for the `["cancer","brain"]` and `"2023"` query against a
summary service that returns at most one well-formed DocSum per UID, the
pipeline succeeds with at most 10 rows, every row carries the fields ID,
Title, AuthorList, PubDate, DOI and Link PubMed, and the DOI field holds the
sentinel "No disponible" whenever the source record has no DOI key. -/
theorem pipeline_cancer_brain (db : String → List String)
    (esummary : String → List DocSum)
    (hlen : (cancerBrainDocs db esummary).length ≤ (cancerBrainIds db).length)
    (hwf : ∀ a ∈ cancerBrainDocs db esummary, requiredPresent a = true) :
    ∃ rows, pipeline db esummary (.list ["cancer", "brain"]) "2023" = .ok rows ∧
      rows.length ≤ 10 ∧
      (∀ r ∈ rows, ∀ f ∈ articleSchema, (r.lookup f).isSome = true) ∧
      ∀ (i : Nat) (hi : i < (cancerBrainDocs db esummary).length)
        (hi' : i < rows.length),
        ((cancerBrainDocs db esummary).get ⟨i, hi⟩).lookup "DOI" = none →
          (rows.get ⟨i, hi'⟩).lookup "DOI" = some (PyVal.str doiSentinel) := by
  obtain ⟨rows, hrows⟩ := articlesLoop_ok_of_required (cancerBrainDocs db esummary) hwf
  refine ⟨rows, hrows, ?_, ?_, ?_⟩
  · have h1 := articlesLoop_length _ _ hrows
    have h2 : (cancerBrainIds db).length ≤ 10 :=
      length_search_articles_le db (.list ["cancer", "brain"]) "2023" 10
    omega
  · intro r hr f hf
    obtain ⟨a, _, hok⟩ := articlesLoop_mem _ _ hrows r hr
    obtain ⟨vid, vt, va, vp, _, _, _, _, rfl⟩ := (articleInfo_ok_iff a r).mp hok
    exact mkRow_lookup_isSome a vid vt va vp f hf
  · intro i hi hi' hdoi
    have hok := articlesLoop_get _ _ hrows i hi hi'
    obtain ⟨vid, vt, va, vp, _, _, _, _, heq⟩ := (articleInfo_ok_iff _ _).mp hok
    rw [heq]
    exact mkRow_lookup_DOI_none _ vid vt va vp hdoi

/-- C1, witness: the amended pipeline property at a concrete database and
summary service. -/
theorem pipeline_cancer_brain_witness :
    (cancerBrainDocs ceDb ceEsummary).length ≤ (cancerBrainIds ceDb).length ∧
    (∀ a ∈ cancerBrainDocs ceDb ceEsummary, requiredPresent a = true) ∧
    ∃ rows, pipeline ceDb ceEsummary (.list ["cancer", "brain"]) "2023" = .ok rows ∧
      rows.length ≤ 10 ∧
      (∀ r ∈ rows, ∀ f ∈ articleSchema, (r.lookup f).isSome = true) ∧
      ∀ (i : Nat) (hi : i < (cancerBrainDocs ceDb ceEsummary).length)
        (hi' : i < rows.length),
        ((cancerBrainDocs ceDb ceEsummary).get ⟨i, hi⟩).lookup "DOI" = none →
          (rows.get ⟨i, hi'⟩).lookup "DOI" = some (PyVal.str doiSentinel) :=
  ⟨by decide, by decide, pipeline_cancer_brain ceDb ceEsummary (by decide) (by decide)⟩

/-- C2: a summary record missing the optional DOI field yields a row holding
the declared sentinel instead of failing, and a record missing one of the
required fields Id, Title, AuthorList or PubDate makes `article_details`
fail with a KeyError (the parse error of the embedding). -/
theorem missing_field_policy (a : DocSum) :
    (a.lookup "DOI" = none → ∀ r, articleInfo a = .ok r →
        r.lookup "DOI" = some (PyVal.str doiSentinel)) ∧
    ((a.lookup "Id" = none ∨ a.lookup "Title" = none ∨
        a.lookup "AuthorList" = none ∨ a.lookup "PubDate" = none) →
      ∃ k, articleInfo a = .error (.keyError k)) := by
  constructor
  · intro hdoi r hok
    obtain ⟨vid, vt, va, vp, _, _, _, _, rfl⟩ := (articleInfo_ok_iff a r).mp hok
    exact mkRow_lookup_DOI_none a vid vt va vp hdoi
  · intro hmiss
    cases hres : articleInfo a with
    | error e => cases e with | keyError k => exact ⟨k, rfl⟩
    | ok r =>
      obtain ⟨vid, vt, va, vp, h1, h2, h3, h4, _⟩ := (articleInfo_ok_iff a r).mp hres
      rcases hmiss with h | h | h | h
      · rw [h] at h1; cases h1
      · rw [h] at h2; cases h2
      · rw [h] at h3; cases h3
      · rw [h] at h4; cases h4

/-- C2, witness: the policy at two concrete records, one with no DOI key and
one with no Title key. -/
theorem missing_field_policy_witness :
    articleInfo ceDoc = .ok ceRow ∧
    ceRow.lookup "DOI" = some (PyVal.str doiSentinel) ∧
    ∃ k, articleInfo badDoc = .error (.keyError k) :=
  ⟨rfl, (missing_field_policy ceDoc).1 rfl ceRow rfl,
    (missing_field_policy badDoc).2 (Or.inr (Or.inl rfl))⟩

/-- C3: a successful `article_details` run over N summary records builds
exactly N rows, and every row's field names are exactly the declared schema
ID, Title, AuthorList, PubDate, DOI, Link PubMed. -/
theorem table_shape (ds : List DocSum) (rows : List Row)
    (h : articlesLoop ds = .ok rows) :
    rows.length = ds.length ∧ ∀ r ∈ rows, fieldNames r = articleSchema := by
  refine ⟨articlesLoop_length ds rows h, ?_⟩
  intro r hr
  obtain ⟨a, _, hok⟩ := articlesLoop_mem ds rows h r hr
  obtain ⟨vid, vt, va, vp, _, _, _, _, rfl⟩ := (articleInfo_ok_iff a r).mp hok
  exact mkRow_fieldNames a vid vt va vp

/-- C3, witness: the shape property at a concrete one-record batch. -/
theorem table_shape_witness :
    articlesLoop [ceDoc] = .ok [ceRow] ∧
    ([ceRow].length = [ceDoc].length ∧ ∀ r ∈ [ceRow], fieldNames r = articleSchema) :=
  ⟨rfl, table_shape [ceDoc] [ceRow] rfl⟩

/-- C4, counterexample: a batch of one well-formed and one malformed record
makes the whole `article_details` loop fail with the KeyError, producing no
output row at all, the well-formed record's included. -/
theorem batch_abort_counterexample :
    requiredPresent goodDoc = true ∧ requiredPresent badDoc = false ∧
    articlesLoop [goodDoc, badDoc] = .error (.keyError "Title") ∧
    ∀ rows : List Row, articlesLoop [goodDoc, badDoc] ≠ .ok rows := by
  refine ⟨by decide, by decide, rfl, ?_⟩
  intro rows hc
  rw [show articlesLoop [goodDoc, badDoc] = .error (.keyError "Title") from rfl] at hc
  cases hc

/-- C4, amended: a malformed record in a batch aborts the entire
`article_details` call: the uncaught KeyError discards every row, so no
output is produced for the well-formed records either. -/
theorem batch_aborts_on_malformed (ds : List DocSum) (a : DocSum) (ha : a ∈ ds)
    (hbad : requiredPresent a = false) :
    ∃ e, articlesLoop ds = .error e := by
  cases hres : articlesLoop ds with
  | error e => exact ⟨e, rfl⟩
  | ok rows =>
    obtain ⟨r, hr⟩ := articlesLoop_forall_ok ds rows hres a ha
    rw [requiredPresent_of_ok a r hr] at hbad
    cases hbad

/-- C4, witness: the abort at the concrete two-record batch. -/
theorem batch_aborts_on_malformed_witness :
    badDoc ∈ [goodDoc, badDoc] ∧ requiredPresent badDoc = false ∧
    ∃ e, articlesLoop [goodDoc, badDoc] = .error e :=
  ⟨by decide, by decide,
    batch_aborts_on_malformed [goodDoc, badDoc] badDoc (by decide) (by decide)⟩

/-- C5: reading the identity fields ID, Title, AuthorList and PubDate back
from a produced row yields exactly the source record's Id, Title, AuthorList
and PubDate values. -/
theorem identity_round_trip (a : DocSum) (r : Row) (h : articleInfo a = .ok r) :
    r.lookup "ID" = a.lookup "Id" ∧ r.lookup "Title" = a.lookup "Title" ∧
    r.lookup "AuthorList" = a.lookup "AuthorList" ∧
    r.lookup "PubDate" = a.lookup "PubDate" := by
  obtain ⟨vid, vt, va, vp, h1, h2, h3, h4, rfl⟩ := (articleInfo_ok_iff a r).mp h
  refine ⟨?_, ?_, ?_, ?_⟩
  · show some vid = a.lookup "Id"
    exact h1.symm
  · show some vt = a.lookup "Title"
    exact h2.symm
  · show some va = a.lookup "AuthorList"
    exact h3.symm
  · show some vp = a.lookup "PubDate"
    exact h4.symm

/-- C5, witness: the round trip at a concrete record. -/
theorem identity_round_trip_witness :
    articleInfo ceDoc = .ok ceRow ∧
    (ceRow.lookup "ID" = ceDoc.lookup "Id" ∧
     ceRow.lookup "Title" = ceDoc.lookup "Title" ∧
     ceRow.lookup "AuthorList" = ceDoc.lookup "AuthorList" ∧
     ceRow.lookup "PubDate" = ceDoc.lookup "PubDate") :=
  ⟨rfl, identity_round_trip ceDoc ceRow rfl⟩

/-- C6: a successful `article_details` run preserves the source order: the
i-th output row is built from the i-th input record. -/
theorem order_preserved (ds : List DocSum) (rows : List Row)
    (h : articlesLoop ds = .ok rows) :
    rows.length = ds.length ∧
    ∀ (i : Nat) (hi : i < ds.length) (hi' : i < rows.length),
      articleInfo (ds.get ⟨i, hi⟩) = .ok (rows.get ⟨i, hi'⟩) :=
  ⟨articlesLoop_length ds rows h, articlesLoop_get ds rows h⟩

/-- C6, witness: order preservation at a concrete two-record batch. -/
theorem order_preserved_witness :
    articlesLoop [goodDoc, ceDoc] = .ok [goodRow, ceRow] ∧
    ([goodRow, ceRow].length = [goodDoc, ceDoc].length ∧
     ∀ (i : Nat) (hi : i < [goodDoc, ceDoc].length)
       (hi' : i < [goodRow, ceRow].length),
       articleInfo ([goodDoc, ceDoc].get ⟨i, hi⟩) =
         .ok ([goodRow, ceRow].get ⟨i, hi'⟩)) :=
  ⟨rfl, order_preserved [goodDoc, ceDoc] [goodRow, ceRow] rfl⟩

/-- C8: the term `search_articles` passes to the search call is the Python
string rendering of the key_words argument followed by "[Title/Abstract] AND ",
the date and "[PDAT]"; a list argument is embedded in its bracketed, quoted
rendering verbatim, not joined. -/
theorem term_construction (db : String → List String) (kw : PyVal) (d : String)
    (m : Nat) :
    search_articles db kw d m =
      esearch db (pyStr kw ++ "[Title/Abstract] AND " ++ d ++ "[PDAT]") m ∧
    (∀ l : List String, pyStr (.list l) =
      "[" ++ String.intercalate ", " (l.map (fun x => "\x27" ++ x ++ "\x27")) ++ "]") ∧
    searchTerm (.list ["cancer", "brain"]) "2023" =
      "[\x27cancer\x27, \x27brain\x27][Title/Abstract] AND 2023[PDAT]" :=
  ⟨rfl, fun _ => rfl, rfl⟩

/-- C9: the produced row's "Link PubMed" field is the fixed PubMed URL
followed by the record's Id value, so it is derivable from the ID field. -/
theorem link_from_id (a : DocSum) (r : Row) (h : articleInfo a = .ok r) :
    ∃ vid, r.lookup "ID" = some vid ∧
      r.lookup "Link PubMed" =
        some (PyVal.str ("https://www.ncbi.nlm.nih.gov/pubmed/" ++ pyStr vid)) := by
  obtain ⟨vid, vt, va, vp, _, _, _, _, rfl⟩ := (articleInfo_ok_iff a r).mp h
  exact ⟨vid, rfl, rfl⟩

/-- C9, witness: the link derivation at a concrete record. -/
theorem link_from_id_witness :
    articleInfo ceDoc = .ok ceRow ∧
    ∃ vid, ceRow.lookup "ID" = some vid ∧
      ceRow.lookup "Link PubMed" =
        some (PyVal.str ("https://www.ncbi.nlm.nih.gov/pubmed/" ++ pyStr vid)) :=
  ⟨rfl, link_from_id ceDoc ceRow rfl⟩

/-- C10: with the page-size argument omitted, `search_articles` falls back to
its default `max_results` of 10, so the UID list has length at most 10. -/
theorem default_max_results (db : String → List String) (kw : PyVal) (d : String) :
    (search_articles db kw d).length ≤ 10 :=
  length_search_articles_le db kw d 10

end BioSearch

namespace TableJoin

/-- C7: with the key field's values unique on the right table, re-joining a
join with the right table again on the same key yields the same row set: no
duplication growth. -/
theorem joinTables_idempotent (A B : List JRecord) (K : String)
    (hu : ∀ b₁ ∈ B, ∀ b₂ ∈ B, b₁.lookup K = b₂.lookup K → b₁ = b₂)
    (r : JRecord) :
    r ∈ joinTables (joinTables A B K) B K ↔ r ∈ joinTables A B K := by
  constructor
  · intro h
    obtain ⟨a', ha', b', hb', hm', hr⟩ := (mem_joinTables _ _ _ _).mp h
    obtain ⟨a, ha, b, hb, hm, rfl⟩ := (mem_joinTables _ _ _ _).mp ha'
    have hmc : keyMatch K a b' = true := by
      rw [← keyMatch_mergeRecords K a b b' hm]
      exact hm'
    obtain ⟨x, hax, hbx⟩ := (keyMatch_iff K a b).mp hm
    obtain ⟨y, hay, hb'y⟩ := (keyMatch_iff K a b').mp hmc
    have hxy : x = y := by rw [hax] at hay; cases hay; rfl
    have hbb : b = b' := hu b hb b' hb' (by rw [hbx, hb'y, hxy])
    subst hbb
    rw [mergeRecords_absorb] at hr
    exact (mem_joinTables A B K r).mpr ⟨a, ha, b, hb, hm, hr⟩
  · intro h
    obtain ⟨a, ha, b, hb, hm, rfl⟩ := (mem_joinTables _ _ _ _).mp h
    apply (mem_joinTables _ _ _ _).mpr
    refine ⟨mergeRecords a b, (mem_joinTables _ _ _ _).mpr ⟨a, ha, b, hb, hm, rfl⟩,
      b, hb, ?_, ?_⟩
    · rw [keyMatch_mergeRecords K a b b hm]
      exact hm
    · rw [mergeRecords_absorb]

/-- C7, witness: join idempotence at concrete one-row and two-row tables
keyed on date. -/
theorem joinTables_idempotent_witness :
    (∀ b₁ ∈ wB, ∀ b₂ ∈ wB, b₁.lookup "date" = b₂.lookup "date" → b₁ = b₂) ∧
    (wR ∈ joinTables (joinTables wA wB "date") wB "date" ↔
      wR ∈ joinTables wA wB "date") :=
  ⟨by decide, joinTables_idempotent wA wB "date" (by decide) wR⟩

end TableJoin
